import Mathlib

/-!
Shallow embedding of `src/parserHHRU.py`: a resilient paginated-fetch
pipeline over the HH job-listing API.  Python `Optional` values become
`Option`, machine integers become `Int`, float delays become `ℚ` (all the
delay arithmetic in the source is exact powers of two, so no rounding is
lost), and the HTTP transport is abstracted as a function from attempt or
page index to a resolved outcome.
-/

namespace ParserHHRU

/-- The optional nested `salary` object of one raw API listing: the keys
`from`, `to`, `currency`, `gross`, each possibly absent or null. -/
structure Salary where
  from_ : Option Int
  to_ : Option Int
  currency : Option String
  gross : Option Bool
deriving Repr, DecidableEq

/-- One raw API listing object, restricted to the keys the parser reads:
`name`, `alternate_url` and the nested `salary` object. -/
structure RawVacancy where
  name : Option String
  alternate_url : Option String
  salary : Option Salary
deriving Repr, DecidableEq

/-- The dataclass `VacancyData` of the source. -/
structure VacancyData where
  title : String
  url : String
  salary_from : Option Int
  salary_to : Option Int
  salary_currency : Option String
  salary_gross : Option Bool
  retrieved_at : String
deriving Repr, DecidableEq

/-- `VacancyData.api_response`: normalization of one raw object.  `now` is
the timestamp `datetime.now().isoformat()` stamped at normalization time.
`vacancy_data.get('name','')` is `Option.getD ""`; the guarded
`salary_info.get(k) if salary_info else None` chain is `Option.bind`.
The surrounding `try/except` returns `none` only on an unexpected fault,
which cannot arise on a well-typed raw object, so the embedding always
returns `some`. -/
def VacancyData.api_response (vacancy_data : RawVacancy) (now : String) :
    Option VacancyData :=
  some
    { title := vacancy_data.name.getD ""
      url := vacancy_data.alternate_url.getD ""
      salary_from := vacancy_data.salary.bind Salary.from_
      salary_to := vacancy_data.salary.bind Salary.to_
      salary_currency := vacancy_data.salary.bind Salary.currency
      salary_gross := vacancy_data.salary.bind Salary.gross
      retrieved_at := now }

/-- `extract_vacancy_data`: normalize every item of a page, keeping the
records for which `api_response` succeeded, in order. -/
def extract_vacancy_data (vacancies : List RawVacancy) (now : String) :
    List VacancyData :=
  vacancies.filterMap (fun vacancy => VacancyData.api_response vacancy now)

/-- One disjunct of the salary test in `filter_by_salary`:
`vacancy.salary_from and vacancy.salary_from >= min_salary`.  Python
truthiness makes the integer `0` falsy, so a bound equal to `0` fails the
left conjunct exactly like an absent (`None`) bound. -/
def bound_passes (bound : Option Int) (min_salary : Int) : Bool :=
  match bound with
  | none => false
  | some v => decide (v ≠ 0) && decide (min_salary ≤ v)

/-- The salary predicate of `filter_by_salary` applied to one record. -/
def salary_passes (vacancy : VacancyData) (min_salary : Int) : Bool :=
  bound_passes vacancy.salary_from min_salary ||
    bound_passes vacancy.salary_to min_salary

/-- `filter_by_salary`: the source loop appends, in order, exactly the
records passing the salary test. -/
def filter_by_salary (vacancies : List VacancyData) (min_salary : Int) :
    List VacancyData :=
  vacancies.filter (fun vacancy => salary_passes vacancy min_salary)

/-- The decoded JSON body of one page response, restricted to the keys the
walker reads: the `items` sequence and the `pages` count.  A body whose
`items` is `none` covers both an empty dict (falsy in `if not vacancies`)
and a dict without an `items` key. -/
structure Body where
  items : Option (List RawVacancy)
  pages : Option Int
deriving Repr, DecidableEq

/-- A resolved HTTP response: its status code and the result of
`response.json()` (`none` models a `JSONDecodeError`). -/
structure HttpResp where
  status_code : Int
  jsonBody : Option Body
deriving Repr, DecidableEq

/-- What one invocation of the wrapped action does: return a response
object, or raise a network-layer fault (`requests` exception). -/
inductive AttemptOutcome where
  | resp (r : HttpResp)
  | raiseNet
deriving Repr, DecidableEq

/-- The keyword configuration of the `retry_request` decorator. -/
structure RetryConfig where
  max_retries : Nat
  initial_delay : ℚ
  backoff_factor : ℚ
  retryable_status_codes : List Int
deriving Repr, DecidableEq

/-- The decorator defaults:
`max_retries=3, initial_delay=1.0, backoff_factor=2.0,
retryable_status_codes=[429, 500, 502, 503, 504]`. -/
def default_config : RetryConfig :=
  { max_retries := 3
    initial_delay := 1
    backoff_factor := 2
    retryable_status_codes := [429, 500, 502, 503, 504] }

/-- The observable outcome of one run of the retry wrapper: the returned
value (`none` is Python `None` on exhaustion), how many times the wrapped
action was invoked, and the sequence of backoff sleeps performed. -/
structure RetryResult where
  result : Option HttpResp
  invocations : Nat
  sleeps : List ℚ
deriving Repr, DecidableEq

/-- The `while retries <= max_retries` loop of the `retry_request` wrapper.
`func i` is what the wrapped action does on its `i`-th invocation
(0-based); `retries` doubles as the invocation counter, since the loop
invokes the action exactly once per iteration.  A 200 response returns
immediately; a retryable status or a network fault falls through to the
backoff step, which returns `None` when `retries == max_retries` and
otherwise sleeps `delay`, multiplies it by `backoff_factor` and loops. -/
def retry_go (cfg : RetryConfig) (func : Nat → AttemptOutcome)
    (retries : Nat) (delay : ℚ) (sleeps : List ℚ) : RetryResult :=
  if hguard : retries ≤ cfg.max_retries then
    match func retries with
    | .resp r =>
      if r.status_code = 200 then
        { result := some r, invocations := retries + 1, sleeps := sleeps }
      else if r.status_code ∈ cfg.retryable_status_codes then
        if hmax : retries = cfg.max_retries then
          { result := none, invocations := retries + 1, sleeps := sleeps }
        else
          retry_go cfg func (retries + 1) (delay * cfg.backoff_factor)
            (sleeps ++ [delay])
      else
        { result := some r, invocations := retries + 1, sleeps := sleeps }
    | .raiseNet =>
      if hmax : retries = cfg.max_retries then
        { result := none, invocations := retries + 1, sleeps := sleeps }
      else
        retry_go cfg func (retries + 1) (delay * cfg.backoff_factor)
          (sleeps ++ [delay])
  else
    { result := none, invocations := retries, sleeps := sleeps }
termination_by cfg.max_retries + 1 - retries
decreasing_by all_goals omega

/-- The full run of the `retry_request` wrapper: the loop starts with
`retries = 0` and `delay = initial_delay`. -/
def retry_request (cfg : RetryConfig) (func : Nat → AttemptOutcome) :
    RetryResult :=
  retry_go cfg func 0 cfg.initial_delay []

/-- An attempt outcome the wrapper treats as retryable: a raised network
fault, or a returned response whose status is not 200 and is in
`retryable_status_codes`. -/
def retryable_fail (cfg : RetryConfig) (o : AttemptOutcome) : Prop :=
  o = AttemptOutcome.raiseNet ∨
    ∃ r, o = AttemptOutcome.resp r ∧ r.status_code ≠ 200 ∧
      r.status_code ∈ cfg.retryable_status_codes

/-- `fetch_hh_vac` for one page, given the resolved outcome of
`make_request` (`none` models retry exhaustion or an exception escaping the
retry wrapper): a falsy/`None` response returns `None`, a non-200 status
returns `None`, otherwise `response.json()` is returned, with a
`JSONDecodeError` caught into `None`. -/
def fetch_hh_vac (resp : Option HttpResp) : Option Body :=
  match resp with
  | none => none
  | some r => if r.status_code = 200 then r.jsonBody else none

/-- The items the page walk sees at a page: the `items` list of the decoded
body, empty when the fetch failed or the key is absent. -/
def raw_items (transport : Nat → Option HttpResp) (page : Nat) :
    List RawVacancy :=
  match fetch_hh_vac (transport page) with
  | none => []
  | some body => body.items.getD []

/-- The `while True` page loop of `fetch_all`, started at `page`.
`transport p` is the resolved response of `make_request` for page `p`.
Returns the records accumulated from page `page` onward together with the
number of fetches performed from there on.  The loop breaks when the fetch
is not a decoded body, the body lacks `items`, `items` is empty, or the
page-count check `page >= pages - 1 or page >= 19` fires (with
`pages = vacancies.get('pages', 0)`). -/
def fetch_all_go (transport : Nat → Option HttpResp) (min_salary : Int)
    (now : String) (page : Nat) : List VacancyData × Nat :=
  match fetch_hh_vac (transport page) with
  | none => ([], 1)
  | some vacancies =>
    match vacancies.items with
    | none => ([], 1)
    | some current_vacancies =>
      if current_vacancies = [] then ([], 1)
      else
        let structured_vacancies := extract_vacancy_data current_vacancies now
        let filtered_vacancies := filter_by_salary structured_vacancies min_salary
        let pages := vacancies.pages.getD 0
        if hstop : pages - 1 ≤ (page : Int) ∨ 19 ≤ page then
          (filtered_vacancies, 1)
        else
          let rest := fetch_all_go transport min_salary now (page + 1)
          (filtered_vacancies ++ rest.1, rest.2 + 1)
termination_by 20 - page
decreasing_by simp only [not_or, not_le] at hstop; omega

/-- `fetch_all`: the walk starts at page 0 with an empty accumulator. -/
def fetch_all (transport : Nat → Option HttpResp) (min_salary : Int)
    (now : String) : List VacancyData × Nat :=
  fetch_all_go transport min_salary now 0

/-- The salary acceptance condition exactly as the specification words it
(for comparison with the source's `salary_passes`): the record passes iff
`salary_from` is present and at least `min_salary`, or `salary_to` is
present and at least `min_salary`. -/
def spec_salary_passes (vacancy : VacancyData) (min_salary : Int) : Bool :=
  (match vacancy.salary_from with
   | none => false
   | some v => decide (min_salary ≤ v)) ||
  (match vacancy.salary_to with
   | none => false
   | some v => decide (min_salary ≤ v))

/-- A concrete qualifying raw listing used in concrete evaluations. -/
def engineer_raw : RawVacancy :=
  RawVacancy.mk (some "Engineer") (some "http://x")
    (some (Salary.mk (some 300000) none (some "RUR") (some false)))

/-- The normalization of `engineer_raw` at timestamp `"now"`. -/
def engineer_vacancy : VacancyData :=
  VacancyData.mk "Engineer" "http://x" (some 300000) none (some "RUR")
    (some false) "now"

/-- A transport whose single page (reported page count 1) holds exactly
`engineer_raw`. -/
def engineer_transport : Nat → Option HttpResp :=
  fun _ =>
    some (HttpResp.mk 200 (some (Body.mk (some [engineer_raw]) (some 1))))

end ParserHHRU

namespace ParserHHRU

/-- One-step reduction: a 200 response returns immediately. -/
theorem retry_go_of_ok {cfg : RetryConfig} {func : Nat → AttemptOutcome}
    {retries : Nat} {delay : ℚ} {sleeps : List ℚ} {r : HttpResp}
    (hle : retries ≤ cfg.max_retries) (hf : func retries = .resp r)
    (h200 : r.status_code = 200) :
    retry_go cfg func retries delay sleeps =
      { result := some r, invocations := retries + 1, sleeps := sleeps } := by
  rw [retry_go.eq_def, dif_pos hle, hf]
  simp [h200]

/-- One-step reduction: a non-200, non-retryable status returns
immediately. -/
theorem retry_go_of_nonretryable {cfg : RetryConfig}
    {func : Nat → AttemptOutcome} {retries : Nat} {delay : ℚ}
    {sleeps : List ℚ} {r : HttpResp}
    (hle : retries ≤ cfg.max_retries) (hf : func retries = .resp r)
    (h200 : r.status_code ≠ 200)
    (hmem : r.status_code ∉ cfg.retryable_status_codes) :
    retry_go cfg func retries delay sleeps =
      { result := some r, invocations := retries + 1, sleeps := sleeps } := by
  rw [retry_go.eq_def, dif_pos hle, hf]
  simp [h200, hmem]

/-- One-step reduction: a retryable failure on the last allowed attempt
returns `None`. -/
theorem retry_go_of_fail_last {cfg : RetryConfig}
    {func : Nat → AttemptOutcome} {retries : Nat} {delay : ℚ}
    {sleeps : List ℚ} (hmax : retries = cfg.max_retries)
    (hfr : retryable_fail cfg (func retries)) :
    retry_go cfg func retries delay sleeps =
      { result := none, invocations := retries + 1, sleeps := sleeps } := by
  have hle : retries ≤ cfg.max_retries := le_of_eq hmax
  rcases hfr with hnet | ⟨r, hresp, h200, hmem⟩
  · rw [retry_go.eq_def, dif_pos hle, hnet]
    simp [hmax]
  · rw [retry_go.eq_def, dif_pos hle, hresp]
    simp [h200, hmem, hmax]

/-- One-step reduction: a retryable failure before the last allowed attempt
sleeps `delay` and loops with the delay multiplied by the backoff
factor. -/
theorem retry_go_of_fail_step {cfg : RetryConfig}
    {func : Nat → AttemptOutcome} {retries : Nat} {delay : ℚ}
    {sleeps : List ℚ} (hle : retries ≤ cfg.max_retries)
    (hmax : retries ≠ cfg.max_retries)
    (hfr : retryable_fail cfg (func retries)) :
    retry_go cfg func retries delay sleeps =
      retry_go cfg func (retries + 1) (delay * cfg.backoff_factor)
        (sleeps ++ [delay]) := by
  rcases hfr with hnet | ⟨r, hresp, h200, hmem⟩
  · rw [retry_go.eq_def, dif_pos hle, hnet]
    simp [hmax]
  · rw [retry_go.eq_def, dif_pos hle, hresp]
    simp [h200, hmem, hmax]

end ParserHHRU

namespace ParserHHRU

/-- When every attempt up to `max_retries` fails retryably, the loop from
counter `retries` ends in exhaustion with `max_retries + 1` total
invocations, appending the geometric delay sequence to the sleeps done so
far. -/
theorem retry_go_exhaust (cfg : RetryConfig) (func : Nat → AttemptOutcome)
    (hfail : ∀ i, i ≤ cfg.max_retries → retryable_fail cfg (func i)) :
    ∀ (k retries : Nat) (delay : ℚ) (sleeps : List ℚ),
      retries + k = cfg.max_retries →
      retry_go cfg func retries delay sleeps =
        { result := none, invocations := cfg.max_retries + 1,
          sleeps := sleeps ++
            (List.range k).map (fun i => delay * cfg.backoff_factor ^ i) } := by
  intro k
  induction k with
  | zero =>
    intro retries delay sleeps hk
    have hmax : retries = cfg.max_retries := by omega
    rw [retry_go_of_fail_last hmax (hfail retries (le_of_eq hmax))]
    simp [hmax]
  | succ k ih =>
    intro retries delay sleeps hk
    have hle : retries ≤ cfg.max_retries := by omega
    have hne : retries ≠ cfg.max_retries := by omega
    rw [retry_go_of_fail_step hle hne (hfail retries hle)]
    rw [ih (retries + 1) (delay * cfg.backoff_factor) (sleeps ++ [delay])
      (by omega)]
    have hmap : (List.range (k + 1)).map
        (fun i => delay * cfg.backoff_factor ^ i) =
        delay :: (List.range k).map
          (fun i => delay * cfg.backoff_factor * cfg.backoff_factor ^ i) := by
      rw [List.range_succ_eq_map, List.map_cons, List.map_map]
      refine congrArg₂ _ (by ring) (List.map_congr_left ?_)
      intro i _
      simp only [Function.comp]
      ring_nf
      rw [pow_succ]
      ring
    rw [hmap]
    simp

/-- When the first `N` attempts fail retryably and attempt `N` returns a
200 response, the loop from counter `retries ≤ N` returns that response
with `N + 1` total invocations. -/
theorem retry_go_success (cfg : RetryConfig) (func : Nat → AttemptOutcome)
    (N : Nat) (r : HttpResp) (hfN : func N = .resp r)
    (h200 : r.status_code = 200) (hNle : N ≤ cfg.max_retries) :
    ∀ (k retries : Nat) (delay : ℚ) (sleeps : List ℚ), retries + k = N →
      (∀ i, retries ≤ i → i < N → retryable_fail cfg (func i)) →
      (retry_go cfg func retries delay sleeps).result = some r ∧
        (retry_go cfg func retries delay sleeps).invocations = N + 1 := by
  intro k
  induction k with
  | zero =>
    intro retries delay sleeps hk _
    have hre : retries = N := by omega
    subst hre
    rw [retry_go_of_ok hNle hfN h200]
    exact ⟨rfl, rfl⟩
  | succ k ih =>
    intro retries delay sleeps hk hfail
    have hlt : retries < N := by omega
    have hle : retries ≤ cfg.max_retries := by omega
    have hne : retries ≠ cfg.max_retries := by omega
    rw [retry_go_of_fail_step hle hne (hfail retries le_rfl hlt)]
    exact ih (retries + 1) (delay * cfg.backoff_factor) (sleeps ++ [delay])
      (by omega) (fun i hi₁ hi₂ => hfail i (by omega) hi₂)

/-- The loop never performs more invocations than `max_retries + 1`. -/
theorem retry_go_invocations_le (cfg : RetryConfig)
    (func : Nat → AttemptOutcome) :
    ∀ (k retries : Nat) (delay : ℚ) (sleeps : List ℚ),
      retries + k = cfg.max_retries →
      (retry_go cfg func retries delay sleeps).invocations ≤
        cfg.max_retries + 1 := by
  intro k
  induction k with
  | zero =>
    intro retries delay sleeps hk
    have hle : retries ≤ cfg.max_retries := by omega
    rw [retry_go.eq_def, dif_pos hle]
    cases hf : func retries with
    | resp r =>
      by_cases h200 : r.status_code = 200
      · simp [h200]
        omega
      · by_cases hmem : r.status_code ∈ cfg.retryable_status_codes
        · simp [h200, hmem, show retries = cfg.max_retries from by omega]
        · simp [h200, hmem]
          omega
    | raiseNet =>
      simp [show retries = cfg.max_retries from by omega]
  | succ k ih =>
    intro retries delay sleeps hk
    have hle : retries ≤ cfg.max_retries := by omega
    have hne : retries ≠ cfg.max_retries := by omega
    rw [retry_go.eq_def, dif_pos hle]
    cases hf : func retries with
    | resp r =>
      by_cases h200 : r.status_code = 200
      · simp [h200]
        omega
      · by_cases hmem : r.status_code ∈ cfg.retryable_status_codes
        · simp [h200, hmem, hne]
          exact ih (retries + 1) _ _ (by omega)
        · simp [h200, hmem]
          omega
    | raiseNet =>
      simp [hne]
      exact ih (retries + 1) _ _ (by omega)

end ParserHHRU

namespace ParserHHRU

/-- Page-loop reduction: a failed fetch breaks the walk at once. -/
theorem fetch_all_go_of_none {transport : Nat → Option HttpResp}
    {min_salary : Int} {now : String} {page : Nat}
    (hb : fetch_hh_vac (transport page) = none) :
    fetch_all_go transport min_salary now page = ([], 1) := by
  rw [fetch_all_go.eq_def, hb]

/-- Page-loop reduction: a body without an `items` key breaks the walk. -/
theorem fetch_all_go_of_no_items {transport : Nat → Option HttpResp}
    {min_salary : Int} {now : String} {page : Nat} {body : Body}
    (hb : fetch_hh_vac (transport page) = some body)
    (hi : body.items = none) :
    fetch_all_go transport min_salary now page = ([], 1) := by
  rw [fetch_all_go.eq_def, hb]
  simp [hi]

/-- Page-loop reduction: an empty `items` list breaks the walk. -/
theorem fetch_all_go_of_empty {transport : Nat → Option HttpResp}
    {min_salary : Int} {now : String} {page : Nat} {body : Body}
    (hb : fetch_hh_vac (transport page) = some body)
    (hi : body.items = some []) :
    fetch_all_go transport min_salary now page = ([], 1) := by
  rw [fetch_all_go.eq_def, hb]
  simp [hi]

/-- Page-loop reduction: a non-empty page on which the page-count check
`page >= pages - 1 or page >= 19` fires contributes its filtered records
and stops. -/
theorem fetch_all_go_of_last {transport : Nat → Option HttpResp}
    {min_salary : Int} {now : String} {page : Nat} {body : Body}
    {current_vacancies : List RawVacancy}
    (hb : fetch_hh_vac (transport page) = some body)
    (hi : body.items = some current_vacancies)
    (hne : current_vacancies ≠ [])
    (hstop : body.pages.getD 0 - 1 ≤ (page : Int) ∨ 19 ≤ page) :
    fetch_all_go transport min_salary now page =
      (filter_by_salary (extract_vacancy_data current_vacancies now)
        min_salary, 1) := by
  rw [fetch_all_go.eq_def, hb]
  simp only [hi]
  rw [if_neg hne, dif_pos hstop]

/-- Page-loop reduction: a non-empty page on which the page-count check
does not fire contributes its filtered records and continues with the next
page after the inter-page sleep. -/
theorem fetch_all_go_of_cont {transport : Nat → Option HttpResp}
    {min_salary : Int} {now : String} {page : Nat} {body : Body}
    {current_vacancies : List RawVacancy}
    (hb : fetch_hh_vac (transport page) = some body)
    (hi : body.items = some current_vacancies)
    (hne : current_vacancies ≠ [])
    (hnostop : ¬(body.pages.getD 0 - 1 ≤ (page : Int) ∨ 19 ≤ page)) :
    fetch_all_go transport min_salary now page =
      (filter_by_salary (extract_vacancy_data current_vacancies now)
          min_salary ++
        (fetch_all_go transport min_salary now (page + 1)).1,
       (fetch_all_go transport min_salary now (page + 1)).2 + 1) := by
  rw [fetch_all_go.eq_def, hb]
  simp only [hi]
  rw [if_neg hne, dif_neg hnostop]

end ParserHHRU

namespace ParserHHRU

/-- Page-count arithmetic of the walk: when every fetch decodes to a
non-empty `items` list and a constant reported page count `P ≥ 1`, the
walk from page `page` performs exactly `k + 1` fetches, where `k` is the
distance from `page` to the last fetched page `min (P - 1) 19`. -/
theorem fetch_all_go_count (transport : Nat → Option HttpResp)
    (min_salary : Int) (now : String) (P : Int)
    (htr : ∀ p, ∃ cur, fetch_hh_vac (transport p) =
      some { items := some cur, pages := some P } ∧ cur ≠ [])
    (hP : 1 ≤ P) :
    ∀ (k page : Nat), page + k = min (P.toNat - 1) 19 →
      (fetch_all_go transport min_salary now page).2 = k + 1 := by
  intro k
  induction k with
  | zero =>
    intro page hk
    obtain ⟨cur, hb, hcur⟩ := htr page
    have hstop : P - 1 ≤ (page : Int) ∨ 19 ≤ page := by omega
    rw [fetch_all_go_of_last hb rfl hcur hstop]
  | succ k ih =>
    intro page hk
    obtain ⟨cur, hb, hcur⟩ := htr page
    have hnostop : ¬(P - 1 ≤ (page : Int) ∨ 19 ≤ page) := by omega
    rw [fetch_all_go_of_cont hb rfl hcur hnostop]
    show (fetch_all_go transport min_salary now (page + 1)).2 + 1 = k + 1 + 1
    rw [ih (page + 1) (by omega)]

/-- Hard-cap bound: from page `page` with `page + k = 19`, the walk
performs at most `k + 1` fetches, whatever the fetch outcomes are. -/
theorem fetch_all_go_count_le (transport : Nat → Option HttpResp)
    (min_salary : Int) (now : String) :
    ∀ (k page : Nat), page + k = 19 →
      (fetch_all_go transport min_salary now page).2 ≤ k + 1 := by
  intro k
  induction k with
  | zero =>
    intro page hk
    cases hb : fetch_hh_vac (transport page) with
    | none => rw [fetch_all_go_of_none hb]
    | some body =>
      cases hi : body.items with
      | none => rw [fetch_all_go_of_no_items hb hi]
      | some cur =>
        by_cases hcur : cur = []
        · subst hcur
          rw [fetch_all_go_of_empty hb hi]
        · have hstop : body.pages.getD 0 - 1 ≤ (page : Int) ∨ 19 ≤ page :=
            Or.inr (by omega)
          rw [fetch_all_go_of_last hb hi hcur hstop]
  | succ k ih =>
    intro page hk
    cases hb : fetch_hh_vac (transport page) with
    | none =>
      rw [fetch_all_go_of_none hb]
      omega
    | some body =>
      cases hi : body.items with
      | none =>
        rw [fetch_all_go_of_no_items hb hi]
        omega
      | some cur =>
        by_cases hcur : cur = []
        · subst hcur
          rw [fetch_all_go_of_empty hb hi]
          omega
        · by_cases hstop : body.pages.getD 0 - 1 ≤ (page : Int) ∨ 19 ≤ page
          · rw [fetch_all_go_of_last hb hi hcur hstop]
            omega
          · rw [fetch_all_go_of_cont hb hi hcur hstop]
            have := ih (page + 1) (by omega)
            show (fetch_all_go transport min_salary now (page + 1)).2 + 1 ≤
              k + 1 + 1
            omega

/-- Shape of the accumulator: the records the walk returns from page
`page` onward are exactly the per-page normalized records of the fetched
pages, concatenated in page order, then filtered by the salary
predicate. -/
theorem fetch_all_go_shape (transport : Nat → Option HttpResp)
    (min_salary : Int) (now : String) :
    ∀ (k page : Nat), page + k = 19 →
      (fetch_all_go transport min_salary now page).1 =
        ((List.range' page
            (fetch_all_go transport min_salary now page).2).flatMap
          (fun p => extract_vacancy_data (raw_items transport p) now)).filter
          (fun vacancy => salary_passes vacancy min_salary) := by
  intro k
  induction k with
  | zero =>
    intro page hk
    cases hb : fetch_hh_vac (transport page) with
    | none =>
      rw [fetch_all_go_of_none hb]
      simp [List.range'_one, raw_items, hb, extract_vacancy_data]
    | some body =>
      cases hi : body.items with
      | none =>
        rw [fetch_all_go_of_no_items hb hi]
        simp [List.range'_one, raw_items, hb, hi, extract_vacancy_data]
      | some cur =>
        by_cases hcur : cur = []
        · subst hcur
          rw [fetch_all_go_of_empty hb hi]
          simp [List.range'_one, raw_items, hb, hi, extract_vacancy_data]
        · have hstop : body.pages.getD 0 - 1 ≤ (page : Int) ∨ 19 ≤ page :=
            Or.inr (by omega)
          rw [fetch_all_go_of_last hb hi hcur hstop]
          simp [List.range'_one, raw_items, hb, hi, filter_by_salary]
  | succ k ih =>
    intro page hk
    cases hb : fetch_hh_vac (transport page) with
    | none =>
      rw [fetch_all_go_of_none hb]
      simp [List.range'_one, raw_items, hb, extract_vacancy_data]
    | some body =>
      cases hi : body.items with
      | none =>
        rw [fetch_all_go_of_no_items hb hi]
        simp [List.range'_one, raw_items, hb, hi, extract_vacancy_data]
      | some cur =>
        by_cases hcur : cur = []
        · subst hcur
          rw [fetch_all_go_of_empty hb hi]
          simp [List.range'_one, raw_items, hb, hi, extract_vacancy_data]
        · by_cases hstop : body.pages.getD 0 - 1 ≤ (page : Int) ∨ 19 ≤ page
          · rw [fetch_all_go_of_last hb hi hcur hstop]
            simp [List.range'_one, raw_items, hb, hi, filter_by_salary]
          · rw [fetch_all_go_of_cont hb hi hcur hstop]
            show filter_by_salary (extract_vacancy_data cur now) min_salary ++
                (fetch_all_go transport min_salary now (page + 1)).1 = _
            rw [List.range'_succ, List.flatMap_cons, List.filter_append]
            refine congrArg₂ _ ?_ (ih (page + 1) (by omega))
            simp [raw_items, hb, hi, filter_by_salary]

end ParserHHRU

namespace ParserHHRU

/-- Characterization of one truthiness-guarded salary comparison: it
holds exactly for a present, non-zero bound at least `min_salary`. -/
theorem bound_passes_iff (bound : Option Int) (min_salary : Int) :
    bound_passes bound min_salary = true ↔
      ∃ v, bound = some v ∧ v ≠ 0 ∧ min_salary ≤ v := by
  cases bound with
  | none => simp [bound_passes]
  | some v => simp [bound_passes]

/-- C1: the claimed contract "accepted iff (salary_from present and
≥ min_salary) or (salary_to present and ≥ min_salary)" fails on the code:
the record with `salary_from = 0`, `salary_to` absent satisfies the
claimed condition at `min_salary = 0`, yet `filter_by_salary` rejects it,
because the Python conjunction `vacancy.salary_from and ...` treats the
falsy integer `0` like `None`. -/
theorem C1_salary_filter_counterexample :
    spec_salary_passes
        { title := "", url := "", salary_from := some 0, salary_to := none,
          salary_currency := none, salary_gross := none,
          retrieved_at := "" } 0 = true ∧
      salary_passes
        { title := "", url := "", salary_from := some 0, salary_to := none,
          salary_currency := none, salary_gross := none,
          retrieved_at := "" } 0 = false := by
  constructor
  · rfl
  · rfl

/-- C1 (amended): the salary filter accepts a record iff salary_from is
present, non-zero and ≥ min_salary, or salary_to is present, non-zero and
≥ min_salary (a bound equal to 0 is falsy in Python and counts as absent);
a record with both salary bounds absent is never accepted. -/
theorem C1_salary_filter_amended (vacancy : VacancyData) (min_salary : Int) :
    (salary_passes vacancy min_salary = true ↔
      ((∃ v, vacancy.salary_from = some v ∧ v ≠ 0 ∧ min_salary ≤ v) ∨
        (∃ v, vacancy.salary_to = some v ∧ v ≠ 0 ∧ min_salary ≤ v))) ∧
    (vacancy.salary_from = none → vacancy.salary_to = none →
      salary_passes vacancy min_salary = false) := by
  constructor
  · simp only [salary_passes, Bool.or_eq_true, bound_passes_iff]
  · intro h1 h2
    simp [salary_passes, bound_passes, h1, h2]

/-- C1 witness: a record with both bounds absent is rejected at the
default threshold. -/
theorem C1_salary_filter_amended_witness :
    salary_passes
        { title := "", url := "", salary_from := none, salary_to := none,
          salary_currency := none, salary_gross := none,
          retrieved_at := "" } 250000 = false :=
  (C1_salary_filter_amended
    { title := "", url := "", salary_from := none, salary_to := none,
      salary_currency := none, salary_gross := none,
      retrieved_at := "" } 250000).2 rfl rfl

/-- C2: for any configuration, if the action fails retryably on the first
N invocations (N < max_retries) and invocation N returns a 200 response,
the wrapper returns that response after exactly N+1 invocations; if every
attempt up to max_retries fails retryably, the wrapper returns no result
after exactly max_retries+1 invocations; and no run ever makes more than
max_retries+1 invocations. -/
theorem C2_retry_invocation_spec (cfg : RetryConfig)
    (func : Nat → AttemptOutcome) :
    (∀ (N : Nat) (r : HttpResp), N < cfg.max_retries →
        (∀ i, i < N → retryable_fail cfg (func i)) →
        func N = AttemptOutcome.resp r → r.status_code = 200 →
        (retry_request cfg func).result = some r ∧
          (retry_request cfg func).invocations = N + 1) ∧
    ((∀ i, i ≤ cfg.max_retries → retryable_fail cfg (func i)) →
        (retry_request cfg func).result = none ∧
          (retry_request cfg func).invocations = cfg.max_retries + 1) ∧
    (retry_request cfg func).invocations ≤ cfg.max_retries + 1 := by
  refine ⟨?_, ?_, ?_⟩
  · intro N r hN hfail hfN h200
    exact retry_go_success cfg func N r hfN h200 (le_of_lt hN) N 0
      cfg.initial_delay [] (by omega) (fun i _ h2 => hfail i h2)
  · intro hfail
    have h := retry_go_exhaust cfg func hfail cfg.max_retries 0
      cfg.initial_delay [] (by omega)
    unfold retry_request
    rw [h]
    exact ⟨rfl, rfl⟩
  · exact retry_go_invocations_le cfg func cfg.max_retries 0
      cfg.initial_delay [] (by omega)

/-- C2 witness: two network faults then a 200 response, under the default
configuration: the response is returned after exactly 3 invocations. -/
theorem C2_retry_invocation_spec_witness :
    (retry_request default_config
        (fun i => if i < 2 then AttemptOutcome.raiseNet
          else AttemptOutcome.resp
            { status_code := 200, jsonBody := none })).result =
        some { status_code := 200, jsonBody := none } ∧
      (retry_request default_config
        (fun i => if i < 2 then AttemptOutcome.raiseNet
          else AttemptOutcome.resp
            { status_code := 200, jsonBody := none })).invocations = 2 + 1 :=
  (C2_retry_invocation_spec default_config _).1 2
    { status_code := 200, jsonBody := none } (by decide)
    (fun i hi => Or.inl (if_pos hi)) (if_neg (by decide)) rfl

end ParserHHRU

namespace ParserHHRU

/-- C3: when every fetch succeeds with a decoded body holding a non-empty
items list and a constant reported page count P ≥ 1, the walk performs
exactly min(P, 20) fetches (pages 0 .. min(P, 20) - 1) and stops; in
particular 3 fetches for P = 3 and 20 fetches for P = 50. -/
theorem C3_fetch_count (transport : Nat → Option HttpResp)
    (min_salary : Int) (now : String) (P : Int) (hP : 1 ≤ P)
    (htr : ∀ p, ∃ cur, fetch_hh_vac (transport p) =
      some { items := some cur, pages := some P } ∧ cur ≠ []) :
    (fetch_all transport min_salary now).2 = min P.toNat 20 ∧
      (P = 3 → (fetch_all transport min_salary now).2 = 3) ∧
      (P = 50 → (fetch_all transport min_salary now).2 = 20) := by
  have h := fetch_all_go_count transport min_salary now P htr hP
    (min (P.toNat - 1) 19) 0 (by omega)
  unfold fetch_all
  rw [h]
  exact ⟨by omega, fun h3 => by omega, fun h50 => by omega⟩

/-- C3 witness: a constant source reporting pages = 3 with one item per
page yields exactly 3 fetches. -/
theorem C3_fetch_count_witness :
    (fetch_all
        (fun _ => some (HttpResp.mk 200
          (some (Body.mk (some [RawVacancy.mk none none none]) (some 3)))))
        250000 "now").2 = 3 :=
  (C3_fetch_count
    (fun _ => some (HttpResp.mk 200
      (some (Body.mk (some [RawVacancy.mk none none none]) (some 3)))))
    250000 "now" 3 (by norm_num)
    (fun p => ⟨[RawVacancy.mk none none none], rfl, by simp⟩)).2.1 rfl

/-- C4: the walk always terminates after at most 20 fetches (page index
never exceeds 19), for every sequence of fetch outcomes and every value or
absence of the reported pages field: the hard cap check bounds the loop
independently of the reported page count. -/
theorem C4_walk_hard_cap (transport : Nat → Option HttpResp)
    (min_salary : Int) (now : String) :
    (fetch_all transport min_salary now).2 ≤ 20 :=
  fetch_all_go_count_le transport min_salary now 19 0 rfl

/-- C5: every record in the final accumulated sequence satisfies the
active salary filter predicate, and the sequence is exactly the per-page
normalized records of the fetched pages, concatenated in page order with
item order kept, filtered by that predicate — no resorting. -/
theorem C5_filter_invariant_and_order (transport : Nat → Option HttpResp)
    (min_salary : Int) (now : String) :
    (∀ vacancy ∈ (fetch_all transport min_salary now).1,
        salary_passes vacancy min_salary = true) ∧
      (fetch_all transport min_salary now).1 =
        ((List.range (fetch_all transport min_salary now).2).flatMap
          (fun p => extract_vacancy_data (raw_items transport p) now)).filter
          (fun vacancy => salary_passes vacancy min_salary) := by
  have h := fetch_all_go_shape transport min_salary now 19 0 rfl
  constructor
  · intro vacancy hv
    unfold fetch_all at hv
    rw [h] at hv
    exact (List.mem_filter.mp hv).2
  · unfold fetch_all
    rw [h, List.range_eq_range']

/-- C5 witness: a one-page run with a single qualifying record; the
record the walk accumulates satisfies the salary predicate. -/
theorem C5_filter_invariant_and_order_witness :
    salary_passes engineer_vacancy 250000 = true := by
  have hb : fetch_hh_vac (engineer_transport 0) =
      some (Body.mk (some [engineer_raw]) (some 1)) := rfl
  have hcomp : fetch_all engineer_transport 250000 "now" =
      ([engineer_vacancy], 1) := by
    unfold fetch_all
    rw [fetch_all_go_of_last hb rfl (by simp) (Or.inl (by simp))]
    rfl
  refine (C5_filter_invariant_and_order engineer_transport 250000 "now").1
    engineer_vacancy ?_
  rw [hcomp]
  exact List.mem_singleton.mpr rfl

/-- C6: a terminal fetch failure (non-retryable status, JSON decode
failure, retry exhaustion), an absent items key, or an empty items list
stops the walk at that page with no further records and exactly one fetch
there, so the run returns only what earlier pages accumulated; an empty
items list on page 0 yields an empty result after exactly one fetch. -/
theorem C6_terminal_stop (transport : Nat → Option HttpResp)
    (min_salary : Int) (now : String) :
    (∀ r : HttpResp, r.status_code ≠ 200 → fetch_hh_vac (some r) = none) ∧
    (∀ s : Int,
      fetch_hh_vac (some { status_code := s, jsonBody := none }) = none) ∧
    fetch_hh_vac none = none ∧
    (∀ page body, fetch_hh_vac (transport page) = some body →
        (body.items = none ∨ body.items = some []) →
        fetch_all_go transport min_salary now page = ([], 1)) ∧
    (∀ page, fetch_hh_vac (transport page) = none →
        fetch_all_go transport min_salary now page = ([], 1)) ∧
    (∀ body, fetch_hh_vac (transport 0) = some body →
        body.items = some [] →
        fetch_all transport min_salary now = ([], 1)) := by
  refine ⟨?_, ?_, rfl, ?_, ?_, ?_⟩
  · intro r hr
    simp [fetch_hh_vac, hr]
  · intro s
    by_cases hs : s = 200 <;> simp [fetch_hh_vac, hs]
  · intro page body hb hi
    rcases hi with hi | hi
    · exact fetch_all_go_of_no_items hb hi
    · exact fetch_all_go_of_empty hb hi
  · intro page hb
    exact fetch_all_go_of_none hb
  · intro body hb hi
    unfold fetch_all
    exact fetch_all_go_of_empty hb hi

/-- C6 witness: an empty items list on page 0 yields an empty result
after exactly one fetch. -/
theorem C6_terminal_stop_witness :
    fetch_all
        (fun _ => some (HttpResp.mk 200
          (some (Body.mk (some []) (some 1))))) 250000 "now" = ([], 1) :=
  (C6_terminal_stop
      (fun _ => some (HttpResp.mk 200
        (some (Body.mk (some []) (some 1)))))
      250000 "now").2.2.2.2.2 (Body.mk (some []) (some 1)) rfl rfl

end ParserHHRU

namespace ParserHHRU

/-- C7: an action whose first invocation returns a response with a
non-200 status that is not in `retryable_status_codes` is returned
unchanged after exactly one invocation, with no backoff sleep. -/
theorem C7_nonretryable_first (cfg : RetryConfig)
    (func : Nat → AttemptOutcome) (r : HttpResp)
    (hf : func 0 = AttemptOutcome.resp r) (h200 : r.status_code ≠ 200)
    (hmem : r.status_code ∉ cfg.retryable_status_codes) :
    retry_request cfg func =
      { result := some r, invocations := 1, sleeps := [] } := by
  unfold retry_request
  exact retry_go_of_nonretryable (Nat.zero_le _) hf h200 hmem

/-- C7 witness: a constant 404 response under the default configuration
is returned after one invocation with no sleeps. -/
theorem C7_nonretryable_first_witness :
    retry_request default_config
        (fun _ => AttemptOutcome.resp (HttpResp.mk 404 none)) =
      { result := some (HttpResp.mk 404 none), invocations := 1,
        sleeps := [] } :=
  C7_nonretryable_first default_config
    (fun _ => AttemptOutcome.resp (HttpResp.mk 404 none))
    (HttpResp.mk 404 none) rfl (by norm_num) (by decide)

/-- C9: for an action failing retryably on every attempt, the sleep
sequence is `initial_delay * backoff_factor ^ i` for `i < max_retries`
(each delay is the previous times the factor); in particular it is
`[1.0, 2.0, 4.0]` for the default configuration `max_retries = 3,
initial_delay = 1.0, backoff_factor = 2.0`, and with factor 2.0 and a
positive initial delay it is strictly increasing. -/
theorem C9_backoff_sequence (cfg : RetryConfig)
    (func : Nat → AttemptOutcome)
    (hfail : ∀ i, i ≤ cfg.max_retries → retryable_fail cfg (func i)) :
    (retry_request cfg func).sleeps =
        (List.range cfg.max_retries).map
          (fun i => cfg.initial_delay * cfg.backoff_factor ^ i) ∧
      (cfg = default_config → (retry_request cfg func).sleeps =
        [1, 2, 4]) ∧
      (cfg.backoff_factor = 2 → 0 < cfg.initial_delay →
        List.Chain' (fun a b => a < b) (retry_request cfg func).sleeps) := by
  have h := retry_go_exhaust cfg func hfail cfg.max_retries 0
    cfg.initial_delay [] (by omega)
  unfold retry_request
  rw [h]
  simp only [List.nil_append]
  refine ⟨trivial, ?_, ?_⟩
  · intro hcfg
    subst hcfg
    norm_num [default_config, List.range_succ]
  · intro hb hd
    apply List.Pairwise.chain'
    rw [List.pairwise_map]
    refine (List.pairwise_lt_range cfg.max_retries).imp ?_
    intro a b hab
    rw [hb]
    exact mul_lt_mul_of_pos_left (pow_lt_pow_right₀ one_lt_two hab) hd

/-- C9 witness: an always-failing action under the default configuration
sleeps exactly 1.0, 2.0, 4.0 seconds between attempts. -/
theorem C9_backoff_sequence_witness :
    (retry_request default_config
        (fun _ => AttemptOutcome.raiseNet)).sleeps = [1, 2, 4] :=
  (C9_backoff_sequence default_config (fun _ => AttemptOutcome.raiseNet)
    (fun i _ => Or.inl rfl)).2.1 rfl

/-- C10: `filter_by_salary` is idempotent at a fixed threshold, and its
output is a sublist of its input (kept in original relative order,
nothing added). -/
theorem C10_filter_idempotent_sublist (vacancies : List VacancyData)
    (min_salary : Int) :
    filter_by_salary (filter_by_salary vacancies min_salary) min_salary =
        filter_by_salary vacancies min_salary ∧
      (filter_by_salary vacancies min_salary).Sublist vacancies := by
  constructor
  · unfold filter_by_salary
    rw [List.filter_filter]
    simp only [Bool.and_self]
  · exact List.filter_sublist vacancies

end ParserHHRU

namespace ParserHHRU

/-- C8: a raw object with no salary key normalizes successfully (no skip,
no failure) to a record whose four salary fields are all null, and
missing name or alternate_url keys default to the empty string. -/
theorem C8_normalize_no_salary (name alternate_url : Option String)
    (now : String) :
    VacancyData.api_response (RawVacancy.mk name alternate_url none) now =
      some (VacancyData.mk (name.getD "") (alternate_url.getD "")
        none none none none now) := rfl

end ParserHHRU
